import Mathlib

/-!
Shallow embedding of the annotation coordinate/state engine of
LIJO20041997/Anotoation_tool_yolo (src/app.py), over exact rationals.

Pixel and pointer coordinates are modelled as rationals; Python float
arithmetic is replaced by exact arithmetic on the same formulas.  The
written label lines are modelled by their numeric content, as tuples
(classId, xCenterNorm, yCenterNorm, widthNorm, heightNorm).
-/

/-- A committed bounding box, modelling the five element Python list
that results from appending the class id to a pending box
(src/app.py lines 167 to 168). -/
structure CommittedBox where
  x : ℚ
  y : ℚ
  w : ℚ
  h : ℚ
  class_id : Nat
  deriving Repr, DecidableEq

/-- The pending box, modelling the four element Python list
self.current_bbox = [start_x, start_y, width, height]
(src/app.py line 47). -/
structure PendingBox where
  x : ℚ
  y : ℚ
  w : ℚ
  h : ℚ
  deriving Repr, DecidableEq

/-- Lookup in an insertion ordered association list, modelling Python
dict key lookup for the class_to_id dictionary (keys are unique, so
first match equals the dict entry). -/
def dictGet (l : List (String × Nat)) (k : String) : Option Nat :=
  match l with
  | [] => none
  | (k1, v) :: rest => if k1 = k then some v else dictGet rest k

/-- The class registry: the pair of fields self.class_to_id (insertion
ordered dict, modelled as an association list) and self.current_class_id
of LabelingTool (src/app.py lines 106 to 107). -/
structure Registry where
  class_to_id : List (String × Nat)
  current_class_id : Nat
  deriving Repr, DecidableEq

/-- Class name resolution, embedding src/app.py lines 161 to 166: if the
name is absent it is inserted with the current counter value and the
counter is incremented; the returned id is the dict entry for the name
after the optional insertion. -/
def resolve (r : Registry) (class_name : String) : Nat × Registry :=
  match dictGet r.class_to_id class_name with
  | some i => (i, r)
  | none =>
      (r.current_class_id,
       ⟨r.class_to_id ++ [(class_name, r.current_class_id)],
        r.current_class_id + 1⟩)

/-- Resolving a list of names in order, threading the registry. -/
def resolveAll (r : Registry) : List String → List Nat × Registry
  | [] => ([], r)
  | n :: ns =>
      let p := resolve r n
      let q := resolveAll p.2 ns
      (p.1 :: q.1, q.2)

/-- The maximum of the id values of a mapping, as computed by the Python
expression max(self.class_to_id.values()) on a nonempty mapping. -/
def maxIds (m : List (String × Nat)) : Nat :=
  (m.map Prod.snd).foldl Nat.max 0

/-- Registry restoration from a persisted mapping, embedding src/app.py
lines 114 to 117.  On an empty mapping the Python call
max(self.class_to_id.values()) raises ValueError, modelled as none. -/
def loadRegistry (m : List (String × Nat)) : Option Registry :=
  if m.isEmpty then none
  else some ⟨m, maxIds m + 1⟩

/-- The sequence start, start+1, ..., start+n-1 of n consecutive ids. -/
def seqIds : Nat → Nat → List Nat
  | _, 0 => []
  | a, n + 1 => a :: seqIds (a + 1) n

/-- Modelled from the external Qt library (not repository code): the
integer size of QPixmap.scaled(target, Qt.KeepAspectRatio) as called at
src/app.py line 30.  Qt computes rw = targetH * nativeW / nativeH with
truncating integer division, keeps the target height when rw fits the
target width and otherwise keeps the target width, then clamps both
components to at least 1 (QSize.scaled and QPixmap.scaled in Qt 5). -/
def qtScaledSize (nw nh tw th : Nat) : Nat × Nat :=
  if nw = 0 ∨ nh = 0 then (tw, th)
  else if th * nw / nh ≤ tw then (max (th * nw / nh) 1, max th 1)
  else (max tw 1, max (tw * nh / nw) 1)

/-- The display transform state of ImageLabel: the fields
self.scale_factor and self.image_offset (src/app.py lines 18 to 19). -/
structure DisplayTransform where
  scale_factor : ℚ
  image_offset : ℚ × ℚ
  deriving Repr, DecidableEq

/-- Embedding of ImageLabel.update_scaled_pixmap (src/app.py lines 28 to
36) for an image of native size (nw, nh) shown in a viewport of size
(vw, vh): the scale factor is the minimum of the two axis ratios, the
offset centers the scaled pixmap, and the second component is the size
of the scaled pixmap stored as the visible label pixmap. -/
def update_scaled_pixmap (nw nh vw vh : Nat) : DisplayTransform × (Nat × Nat) :=
  let sp := qtScaledSize nw nh vw vh
  (⟨min ((vw : ℚ) / (nw : ℚ)) ((vh : ℚ) / (nh : ℚ)),
    (((vw : ℚ) - (sp.1 : ℚ)) / 2, ((vh : ℚ) - (sp.2 : ℚ)) / 2)⟩, sp)

/-- Display to image space conversion as performed in
ImageLabel.mousePressEvent and mouseMoveEvent (src/app.py lines 45 to 46
and 52 to 53): subtract the offset, divide by the scale factor. -/
def toImageSpace (t : DisplayTransform) (px py : ℚ) : ℚ × ℚ :=
  ((px - t.image_offset.1) / t.scale_factor,
   (py - t.image_offset.2) / t.scale_factor)

/-- Image to display space conversion as performed in
ImageLabel.paintEvent when building the QRectF for a stored box
(src/app.py lines 77 to 78): multiply by the scale factor, add the
offset. -/
def toDisplaySpace (t : DisplayTransform) (x y : ℚ) : ℚ × ℚ :=
  (x * t.scale_factor + t.image_offset.1,
   y * t.scale_factor + t.image_offset.2)

/-- The reverse lookup list built in ImageLabel.paintEvent at
src/app.py line 85: the comprehension
[name for name, id in self.parent.class_to_id.items() if id == class_id];
the code then reads element [0] of this list. -/
def classNamesFor (l : List (String × Nat)) (cid : Nat) : List String :=
  (l.filter (fun p => p.2 == cid)).map Prod.fst

/-- The combined mutable state of ImageLabel and LabelingTool that the
annotation engine reads and writes: the registry fields, the committed
box list self.label.bboxes, the pending box, the drawing flag, the drag
origin, the native size of self.original_pixmap (none before any image
is loaded), the display transform fields, the size of the scaled pixmap
currently stored in the label (none before any image is loaded), whether
self.image_path holds a nonempty path, and the enabled flags of the
class input and the save button. -/
structure EditorState where
  class_to_id : List (String × Nat)
  current_class_id : Nat
  bboxes : List CommittedBox
  current_bbox : Option PendingBox
  drawing : Bool
  start_x : ℚ
  start_y : ℚ
  original_size : Option (Nat × Nat)
  scale_factor : ℚ
  image_offset : ℚ × ℚ
  pixmap_size : Option (Nat × Nat)
  image_path : Bool
  input_enabled : Bool
  save_enabled : Bool
  deriving Repr, DecidableEq

/-- The state right after LabelingTool.init (src/app.py lines 101 to
149), with m the effective restored mapping: the empty list when no
mapping file exists, in which case the counter stays 0, and otherwise
the persisted mapping with the counter set to the maximum id plus one
(lines 114 to 117). -/
def initialState (m : List (String × Nat)) : EditorState :=
  { class_to_id := m
    current_class_id := if m.isEmpty then 0 else maxIds m + 1
    bboxes := []
    current_bbox := none
    drawing := false
    start_x := 0
    start_y := 0
    original_size := none
    scale_factor := 1
    image_offset := (0, 0)
    pixmap_size := none
    image_path := false
    input_enabled := false
    save_enabled := false }

/-- Embedding of ImageLabel.mousePressEvent (src/app.py lines 42 to 48)
for a left button press at display coordinates (ex, ey): guarded on a
loaded pixmap, it starts drawing, records the image space drag origin,
initializes a zero size pending box and disables the class input. -/
def mousePressEvent (s : EditorState) (ex ey : ℚ) : EditorState :=
  match s.original_size with
  | none => s
  | some _ =>
      let p := toImageSpace ⟨s.scale_factor, s.image_offset⟩ ex ey
      { s with drawing := true
               start_x := p.1
               start_y := p.2
               current_bbox := some ⟨p.1, p.2, 0, 0⟩
               input_enabled := false }

/-- Embedding of ImageLabel.mouseMoveEvent (src/app.py lines 50 to 56):
while drawing, the pending box width and height become the signed
differences between the current image space point and the drag origin.
When drawing holds, the pending box is always present (it was set by the
press handler); the none branch is unreachable in the Python control
flow. -/
def mouseMoveEvent (s : EditorState) (ex ey : ℚ) : EditorState :=
  if s.drawing then
    match s.current_bbox with
    | none => s
    | some b =>
        let p := toImageSpace ⟨s.scale_factor, s.image_offset⟩ ex ey
        { s with current_bbox := some ⟨b.x, b.y, p.1 - s.start_x, p.2 - s.start_y⟩ }
  else s

/-- Embedding of ImageLabel.mouseReleaseEvent (src/app.py lines 58 to
63): stop drawing, re enable and focus the class input. -/
def mouseReleaseEvent (s : EditorState) : EditorState :=
  if s.drawing then { s with drawing := false, input_enabled := true }
  else s

/-- Embedding of LabelingTool.add_class_id (src/app.py lines 158 to
172), the commit handler.  The Python guard tests truthiness of
self.label.current_bbox (a nonempty list, hence truthy whenever present,
regardless of zero components) and of the entered class name (nonempty
string).  On acceptance the class id is resolved through the registry,
appended to the pending box, the five element box is appended to
bboxes, the pending box is cleared and the save button enabled.  No
normalization of width or height is performed. -/
def add_class_id (s : EditorState) (class_name : String) : EditorState :=
  match s.current_bbox with
  | none => s
  | some b =>
      if class_name = "" then s
      else
        let res := resolve ⟨s.class_to_id, s.current_class_id⟩ class_name
        { s with class_to_id := res.2.class_to_id
                 current_class_id := res.2.current_class_id
                 bboxes := s.bboxes ++ [⟨b.x, b.y, b.w, b.h, res.1⟩]
                 current_bbox := none
                 save_enabled := true }

/-- Embedding of the successful branch of LabelingTool.load_image
(src/app.py lines 151 to 156) for a selected image of native size
(nw, nh) shown in a viewport of size (vw, vh): the path is recorded,
setPixmap stores the original pixmap and recomputes the transform and
the scaled pixmap, the committed boxes are cleared and the save button
disabled.  The pending box, the drawing flag and the drag origin are
not touched by this handler. -/
def load_image (s : EditorState) (nw nh vw vh : Nat) : EditorState :=
  let u := update_scaled_pixmap nw nh vw vh
  { s with image_path := true
           original_size := some (nw, nh)
           scale_factor := u.1.scale_factor
           image_offset := u.1.image_offset
           pixmap_size := some u.2
           bboxes := []
           save_enabled := false }

/-- Embedding of the cancelled branch of LabelingTool.load_image: the
file dialog returns an empty path, which is still assigned to
self.image_path, and nothing else happens. -/
def load_image_cancelled (s : EditorState) : EditorState :=
  { s with image_path := false }

/-- Embedding of ImageLabel.resizeEvent (src/app.py lines 38 to 40): the
transform and the scaled pixmap are recomputed for the new viewport size
when an image is loaded; update_scaled_pixmap is a no op otherwise. -/
def resizeEvent (s : EditorState) (vw vh : Nat) : EditorState :=
  match s.original_size with
  | none => s
  | some sz =>
      let u := update_scaled_pixmap sz.1 sz.2 vw vh
      { s with scale_factor := u.1.scale_factor
               image_offset := u.1.image_offset
               pixmap_size := some u.2 }

/-- The numeric content of the label lines written at src/app.py lines
192 to 198, one tuple per committed box, in order:
(class id, x center, y center, width, height), each coordinate divided
by the given image width or height exactly as in the source. -/
def encodeLabels (img_width img_height : ℚ) (boxes : List CommittedBox) :
    List (Nat × ℚ × ℚ × ℚ × ℚ) :=
  boxes.map (fun b =>
    (b.class_id,
     (b.x + b.w / 2) / img_width,
     (b.y + b.h / 2) / img_height,
     b.w / img_width,
     b.h / img_height))

/-- Embedding of LabelingTool.save_labels (src/app.py lines 174 to 198):
the early return fires when no path is set or no box is committed;
otherwise the dimensions used for normalization are those of
self.label.pixmap(), which is the SCALED pixmap stored by
update_scaled_pixmap (the same pixmap is what line 183 writes out as the
PNG artifact), not the native size of the original pixmap. -/
def save_labels (s : EditorState) : Option (List (Nat × ℚ × ℚ × ℚ × ℚ)) :=
  if ¬ s.image_path ∨ s.bboxes = [] then none
  else
    match s.pixmap_size with
    | none => none
    | some sz => some (encodeLabels (sz.1 : ℚ) (sz.2 : ℚ) s.bboxes)

/-- The external events driving the engine: a successful image load
(with the native and viewport sizes it observes), a cancelled load, a
viewport resize, the left button pointer events, and the commit trigger
fired by the return key in the class input. -/
inductive Event where
  | load (nw nh vw vh : Nat)
  | loadCancel
  | resize (vw vh : Nat)
  | press (ex ey : ℚ)
  | move (ex ey : ℚ)
  | release
  | commit (class_name : String)
  deriving Repr, DecidableEq

/-- Event dispatch.  The commit event is guarded by the enabled state of
the class input: a disabled QLineEdit cannot fire returnPressed. -/
def step (s : EditorState) : Event → EditorState
  | Event.load nw nh vw vh => load_image s nw nh vw vh
  | Event.loadCancel => load_image_cancelled s
  | Event.resize vw vh => resizeEvent s vw vh
  | Event.press ex ey => mousePressEvent s ex ey
  | Event.move ex ey => mouseMoveEvent s ex ey
  | Event.release => mouseReleaseEvent s
  | Event.commit n => if s.input_enabled then add_class_id s n else s

/-- Running a sequence of events from a state. -/
def runEvents (s : EditorState) (es : List Event) : EditorState :=
  es.foldl step s

/-- The registry consistency invariant: every committed box carries a
class id that some name in the registry maps to. -/
def RegistryConsistent (s : EditorState) : Prop :=
  ∀ b ∈ s.bboxes, ∃ p ∈ s.class_to_id, p.2 = b.class_id

/-! ## Helper lemmas -/

theorem dictGet_mem (l : List (String × Nat)) (k : String) (v : Nat)
    (h : dictGet l k = some v) : (k, v) ∈ l := by
  induction l with
  | nil => simp [dictGet] at h
  | cons p rest ih =>
      obtain ⟨a, b⟩ := p
      by_cases hk : a = k
      · simp [dictGet, hk] at h
        subst hk
        subst h
        exact List.mem_cons_self _ _
      · simp [dictGet, hk] at h
        exact List.mem_cons_of_mem _ (ih h)

theorem dictGet_append_last (l : List (String × Nat)) (k k1 : String) (v : Nat)
    (h : dictGet l k = none) :
    dictGet (l ++ [(k1, v)]) k = if k1 = k then some v else none := by
  induction l with
  | nil => simp [dictGet]
  | cons p rest ih =>
      obtain ⟨a, b⟩ := p
      by_cases hk : a = k
      · simp [dictGet, hk] at h
      · simp only [dictGet, hk, if_neg, List.cons_append] at h ⊢
        simp only [hk, if_false]
        exact ih h

theorem foldl_max_le_init (l : List Nat) (a : Nat) : a ≤ l.foldl Nat.max a := by
  induction l generalizing a with
  | nil => exact Nat.le_refl a
  | cons x xs ih => exact Nat.le_trans (Nat.le_max_left a x) (ih (Nat.max a x))

theorem mem_le_foldl_max (l : List Nat) (a x : Nat) (hx : x ∈ l) :
    x ≤ l.foldl Nat.max a := by
  induction l generalizing a with
  | nil => cases hx
  | cons y ys ih =>
      rcases List.mem_cons.mp hx with h | h
      · subst h
        exact Nat.le_trans (Nat.le_max_right a x) (foldl_max_le_init ys (Nat.max a x))
      · exact ih (Nat.max a y) h

theorem le_maxIds (m : List (String × Nat)) (p : String × Nat) (hp : p ∈ m) :
    p.2 ≤ maxIds m :=
  mem_le_foldl_max _ 0 p.2 (List.mem_map_of_mem Prod.snd hp)

/-! ## Claim C10 -/

/-- Claim C10: when no pending box exists, the commit handler is a
complete no op: add_class_id returns the state unchanged, so no box is
appended, no class is registered and the id counter is untouched, even
for a nonempty, previously unseen class name. -/
theorem c10_commit_without_pending_noop (s : EditorState) (n : String)
    (h : s.current_bbox = none) : add_class_id s n = s := by
  simp [add_class_id, h]

/-- Witness for claim C10 at the fresh initial state and the unseen
nonempty name dog. -/
theorem c10_commit_without_pending_noop_witness :
    add_class_id (initialState []) "dog" = initialState [] :=
  c10_commit_without_pending_noop (initialState []) "dog" rfl

/-! ## Claim C2 -/

/-- Claim C2, counterexample: the code has no zero size guard.  From the
fresh state, after a left press at (10, 10) and a release with no move,
the pending box is (10, 10, 0, 0) with zero width and zero height, yet
the commit with name cat is accepted: the box is appended to the
committed list, the pending box is cleared, and cat is registered.  The
claim asserts this commit is rejected with the committed list unchanged
and the pending box retained. -/
theorem c2_zero_size_commit_accepted :
    (runEvents (initialState []) [Event.load 800 600 800 600, Event.press 10 10,
        Event.release, Event.commit "cat"]).bboxes = [⟨10, 10, 0, 0, 0⟩] ∧
    (runEvents (initialState []) [Event.load 800 600 800 600, Event.press 10 10,
        Event.release, Event.commit "cat"]).current_bbox = none ∧
    (runEvents (initialState []) [Event.load 800 600 800 600, Event.press 10 10,
        Event.release, Event.commit "cat"]).class_to_id = [("cat", 0)] := by
  norm_num [runEvents, step, load_image, mousePressEvent, mouseMoveEvent,
    mouseReleaseEvent, add_class_id, update_scaled_pixmap, qtScaledSize,
    toImageSpace, resolve, dictGet, initialState,
    show ("cat" : String) ≠ "" from by decide]

/-- Claim C2, amended: with a pending box present, a commit with an
empty class name is rejected with the whole state unchanged (box list
unchanged, pending box retained, no class registered); a commit with any
nonempty class name is accepted regardless of the pending box having
zero width or zero height: the pending box is appended with the resolved
class id and the pending box is cleared. -/
theorem c2_commit_guard_amended (s : EditorState) (b : PendingBox)
    (hb : s.current_bbox = some b) :
    add_class_id s "" = s ∧
    ∀ n, n ≠ "" →
      (add_class_id s n).bboxes = s.bboxes ++
        [⟨b.x, b.y, b.w, b.h, (resolve ⟨s.class_to_id, s.current_class_id⟩ n).1⟩] ∧
      (add_class_id s n).current_bbox = none := by
  refine ⟨by simp [add_class_id, hb], ?_⟩
  intro n hn
  constructor
  · simp [add_class_id, hb, hn]
  · simp [add_class_id, hb, hn]

/-- Witness for claim C2 amended, at a state holding the zero size
pending box (1, 2, 0, 0). -/
theorem c2_commit_guard_amended_witness :
    add_class_id { initialState [] with current_bbox := some ⟨1, 2, 0, 0⟩ } "" =
      { initialState [] with current_bbox := some ⟨1, 2, 0, 0⟩ } ∧
    ∀ n, n ≠ "" →
      (add_class_id { initialState [] with current_bbox := some ⟨1, 2, 0, 0⟩ } n).bboxes =
        (initialState []).bboxes ++
          [⟨1, 2, 0, 0, (resolve ⟨(initialState []).class_to_id,
              (initialState []).current_class_id⟩ n).1⟩] ∧
      (add_class_id { initialState [] with current_bbox := some ⟨1, 2, 0, 0⟩ } n).current_bbox
        = none :=
  c2_commit_guard_amended { initialState [] with current_bbox := some ⟨1, 2, 0, 0⟩ }
    ⟨1, 2, 0, 0⟩ rfl

/-! ## Claim C3 -/

/-- Claim C3, counterexample: a box dragged from (300, 400) up left to
(100, 100) keeps its signed components: the committed box is
(300, 400, -200, -300) with class id 0, so the committed list contains a
box whose width and height are negative.  The claim asserts every
committed box has positive width and height. -/
theorem c3_negative_box_committed :
    (runEvents (initialState []) [Event.load 800 600 800 600, Event.press 300 400,
        Event.move 100 100, Event.release, Event.commit "cat"]).bboxes
      = [⟨300, 400, -200, -300, 0⟩] ∧
    ¬ ((-200 : ℚ) > 0 ∧ (-300 : ℚ) > 0) := by
  norm_num [runEvents, step, load_image, mousePressEvent, mouseMoveEvent,
    mouseReleaseEvent, add_class_id, update_scaled_pixmap, qtScaledSize,
    toImageSpace, resolve, dictGet, initialState,
    show ("cat" : String) ≠ "" from by decide]

/-- Claim C3, amended: an accepted commit appends the pending box
verbatim, with the same x, y and the same signed width and height as
drawn and only the resolved class id appended; no normalization to
positive width and height is performed, so committed boxes retain the
sign given by the drag direction. -/
theorem c3_commit_appends_unnormalized (s : EditorState) (b : PendingBox)
    (n : String) (hb : s.current_bbox = some b) (hn : n ≠ "") :
    add_class_id s n =
      { s with
        class_to_id := (resolve ⟨s.class_to_id, s.current_class_id⟩ n).2.class_to_id
        current_class_id := (resolve ⟨s.class_to_id, s.current_class_id⟩ n).2.current_class_id
        bboxes := s.bboxes ++
          [⟨b.x, b.y, b.w, b.h, (resolve ⟨s.class_to_id, s.current_class_id⟩ n).1⟩]
        current_bbox := none
        save_enabled := true } := by
  simp [add_class_id, hb, hn]

/-- Witness for claim C3 amended, committing the dragged up left pending
box (300, 400, -200, -300) with the name cat. -/
theorem c3_commit_appends_unnormalized_witness :
    add_class_id { initialState [] with current_bbox := some ⟨300, 400, -200, -300⟩ } "cat" =
      { { initialState [] with current_bbox := some ⟨300, 400, -200, -300⟩ } with
        class_to_id := (resolve ⟨(initialState []).class_to_id,
            (initialState []).current_class_id⟩ "cat").2.class_to_id
        current_class_id := (resolve ⟨(initialState []).class_to_id,
            (initialState []).current_class_id⟩ "cat").2.current_class_id
        bboxes := (initialState []).bboxes ++
          [⟨300, 400, -200, -300, (resolve ⟨(initialState []).class_to_id,
              (initialState []).current_class_id⟩ "cat").1⟩]
        current_bbox := none
        save_enabled := true } :=
  c3_commit_appends_unnormalized
    { initialState [] with current_bbox := some ⟨300, 400, -200, -300⟩ }
    ⟨300, 400, -200, -300⟩ "cat" rfl (by decide)

/-! ## Claim C4 -/

/-- Claim C4, counterexample: loading a new image does not discard the
pending box.  After pressing at (10, 10) and releasing on the first
image, loading a second image leaves the pending box (10, 10, 0, 0) in
place, so the editor is not back in the Idle state of the specification
(which requires no pending box) and the in progress box of the previous
image survives. -/
theorem c4_pending_box_survives_load :
    (runEvents (initialState []) [Event.load 800 600 800 600, Event.press 10 10,
        Event.release, Event.load 640 480 800 600]).current_bbox
      = some ⟨10, 10, 0, 0⟩ ∧
    (runEvents (initialState []) [Event.load 800 600 800 600, Event.press 10 10,
        Event.release, Event.load 640 480 800 600]).current_bbox ≠ none := by
  norm_num [runEvents, step, load_image, mousePressEvent, mouseMoveEvent,
    mouseReleaseEvent, update_scaled_pixmap, qtScaledSize,
    toImageSpace, initialState]
  exact Option.some_ne_none _

/-- Claim C4, amended: loading a new image clears the committed box list
and disables the save button, but it retains the pending box, the
drawing flag and the drag origin from the previous image unchanged. -/
theorem c4_load_image_amended (s : EditorState) (nw nh vw vh : Nat) :
    (load_image s nw nh vw vh).bboxes = [] ∧
    (load_image s nw nh vw vh).save_enabled = false ∧
    (load_image s nw nh vw vh).current_bbox = s.current_bbox ∧
    (load_image s nw nh vw vh).drawing = s.drawing ∧
    (load_image s nw nh vw vh).start_x = s.start_x ∧
    (load_image s nw nh vw vh).start_y = s.start_y :=
  ⟨rfl, rfl, rfl, rfl, rfl, rfl⟩

/-! ## Claim C1 -/

/-- Claim C1: evaluation of the saving code at a failing input.  The
800 by 600 image is shown in a 400 by 300 viewport, so the scaled
pixmap is 400 by 300 and the scale factor is one half; the box drawn
from display point (50, 50) to (150, 200) is the image space box
(100, 100, 200, 300) committed as cat with class id 0.  save_labels
normalizes by the scaled pixmap dimensions 400 and 300 (the dimensions
of self.label.pixmap(), which is also the PNG it writes), producing the
line values (0, 1/2, 5/6, 1/2, 1), not the values (0, 1/4, 5/12, 1/4,
1/2) that the claimed native dimension formulas give.  The same drawing
on a viewport equal to the native size, where the scaled and native
dimensions coincide, produces exactly the claimed example values. -/
theorem c1_save_labels_normalizes_by_scaled_pixmap :
    save_labels (runEvents (initialState []) [Event.load 800 600 400 300,
        Event.press 50 50, Event.move 150 200, Event.release, Event.commit "cat"])
      = some [(0, 1/2, 5/6, 1/2, 1)] ∧
    ((1 : ℚ)/2, (5 : ℚ)/6, (1 : ℚ)/2, (1 : ℚ)) ≠
      ((1 : ℚ)/4, (5 : ℚ)/12, (1 : ℚ)/4, (1 : ℚ)/2) ∧
    save_labels (runEvents (initialState []) [Event.load 800 600 800 600,
        Event.press 100 100, Event.move 300 400, Event.release, Event.commit "cat"])
      = some [(0, 1/4, 5/12, 1/4, 1/2)] := by
  refine ⟨?_, by norm_num, ?_⟩ <;>
    norm_num [runEvents, step, load_image, mousePressEvent, mouseMoveEvent,
      mouseReleaseEvent, add_class_id, update_scaled_pixmap, qtScaledSize,
      toImageSpace, resolve, dictGet, initialState, save_labels, encodeLabels,
      show ("cat" : String) ≠ "" from by decide]

/-! ## Claim C5 -/

/-- Claim C5, counterexample: restoring an empty persisted mapping does
not set the counter to 0; the Python max call raises ValueError on an
empty sequence, so the load fails, modelled by loadRegistry returning
none instead of a registry. -/
theorem c5_load_empty_mapping_fails : loadRegistry [] = none := rfl

/-- Claim C5, amended: for a NONEMPTY persisted mapping, the load
replaces the registry contents with the mapping and sets the next id
counter to the maximum persisted id plus one; a subsequent resolve of a
name absent from the mapping returns exactly that counter value, which
collides with no persisted id.  For the empty mapping the load raises
instead of producing a registry with counter 0. -/
theorem c5_load_nonempty_amended (m : List (String × Nat)) (hm : m ≠ []) :
    loadRegistry m = some ⟨m, maxIds m + 1⟩ ∧
    ∀ n, dictGet m n = none →
      (resolve ⟨m, maxIds m + 1⟩ n).1 = maxIds m + 1 ∧
      ∀ p ∈ m, p.2 ≠ (resolve ⟨m, maxIds m + 1⟩ n).1 := by
  constructor
  · simp [loadRegistry, hm]
  · intro n hn
    constructor
    · simp [resolve, hn]
    · intro p hp
      have h1 : p.2 ≤ maxIds m := le_maxIds m p hp
      simp only [resolve, hn]
      omega

/-- Witness for claim C5 amended at the persisted mapping
[(cat, 0), (dog, 4)]. -/
theorem c5_load_nonempty_amended_witness :
    loadRegistry [("cat", 0), ("dog", 4)] =
      some ⟨[("cat", 0), ("dog", 4)], maxIds [("cat", 0), ("dog", 4)] + 1⟩ ∧
    ∀ n, dictGet [("cat", 0), ("dog", 4)] n = none →
      (resolve ⟨[("cat", 0), ("dog", 4)], maxIds [("cat", 0), ("dog", 4)] + 1⟩ n).1 =
        maxIds [("cat", 0), ("dog", 4)] + 1 ∧
      ∀ p ∈ [("cat", 0), ("dog", 4)],
        p.2 ≠ (resolve ⟨[("cat", 0), ("dog", 4)],
          maxIds [("cat", 0), ("dog", 4)] + 1⟩ n).1 :=
  c5_load_nonempty_amended [("cat", 0), ("dog", 4)] (by decide)

/-! ## Claim C6 -/

theorem resolveAll_fresh (names : List String) (r : Registry)
    (hnd : names.Nodup)
    (hfresh : ∀ n ∈ names, dictGet r.class_to_id n = none) :
    (resolveAll r names).1 = seqIds r.current_class_id names.length ∧
    (resolveAll r names).2.current_class_id =
      r.current_class_id + names.length := by
  induction names generalizing r with
  | nil => simp [resolveAll, seqIds]
  | cons n ns ih =>
      have hn : dictGet r.class_to_id n = none :=
        hfresh n (List.mem_cons_self n ns)
      have hstep : resolve r n =
          (r.current_class_id,
           ⟨r.class_to_id ++ [(n, r.current_class_id)],
            r.current_class_id + 1⟩) := by
        simp [resolve, hn]
      have hfresh1 : ∀ m ∈ ns,
          dictGet (r.class_to_id ++ [(n, r.current_class_id)]) m = none := by
        intro m hm
        have hne : ¬ (n = m) := by
          intro he
          subst he
          exact (List.nodup_cons.mp hnd).1 hm
        rw [dictGet_append_last _ _ _ _ (hfresh m (List.mem_cons_of_mem n hm))]
        simp [hne]
      have hrec := ih ⟨r.class_to_id ++ [(n, r.current_class_id)],
          r.current_class_id + 1⟩ (List.nodup_cons.mp hnd).2 hfresh1
      constructor
      · simp only [resolveAll, hstep, List.length_cons, seqIds]
        rw [hrec.1]
      · simp only [resolveAll, hstep, List.length_cons]
        rw [hrec.2]
        dsimp only
        omega

theorem mem_seqIds (n : Nat) (a x : Nat) (h : x ∈ seqIds a n) : a ≤ x := by
  induction n generalizing a with
  | zero => simp [seqIds] at h
  | succ k ih =>
      simp only [seqIds] at h
      rcases List.mem_cons.mp h with h1 | h2
      · omega
      · have := ih (a + 1) h2
        omega

theorem seqIds_nodup (n : Nat) (a : Nat) : (seqIds a n).Nodup := by
  induction n generalizing a with
  | zero => simp [seqIds]
  | succ k ih =>
      simp only [seqIds]
      refine List.nodup_cons.mpr ⟨?_, ih (a + 1)⟩
      intro hmem
      have := mem_seqIds k (a + 1) a hmem
      omega

/-- Claim C6: resolve never fails (it is a total function by
construction); resolving a name twice returns the same id (whether the
second resolve happens immediately after the first or the name was
already present); and resolving a list of pairwise distinct names that
are all absent from the registry yields exactly the consecutive ids
current_class_id, current_class_id + 1, ..., which are pairwise
distinct. -/
theorem c6_resolve_ids (r : Registry) (names : List String)
    (hnd : names.Nodup)
    (hfresh : ∀ n ∈ names, dictGet r.class_to_id n = none) :
    (∀ n, (resolve (resolve r n).2 n).1 = (resolve r n).1) ∧
    (resolveAll r names).1 = seqIds r.current_class_id names.length ∧
    (seqIds r.current_class_id names.length).Nodup := by
  refine ⟨?_, (resolveAll_fresh names r hnd hfresh).1,
    seqIds_nodup names.length r.current_class_id⟩
  intro n
  cases h : dictGet r.class_to_id n with
  | some i => simp [resolve, h]
  | none =>
      simp only [resolve, h]
      rw [dictGet_append_last _ _ _ _ h]
      simp

/-- Witness for claim C6: the empty registry and the three distinct
fresh names a, b, c, which receive the sequential ids 0, 1, 2. -/
theorem c6_resolve_ids_witness :
    (∀ n, (resolve (resolve ⟨[], 0⟩ n).2 n).1 = (resolve ⟨[], 0⟩ n).1) ∧
    (resolveAll ⟨[], 0⟩ ["a", "b", "c"]).1 =
      seqIds (Registry.mk [] 0).current_class_id ["a", "b", "c"].length ∧
    (seqIds (Registry.mk [] 0).current_class_id ["a", "b", "c"].length).Nodup :=
  c6_resolve_ids ⟨[], 0⟩ ["a", "b", "c"] (by decide) (by decide)

/-! ## Claim C7 -/

/-- Claim C7: for positive native and viewport dimensions, the scale
factor of the computed transform is positive, and the display to image
and image to display conversions are mutual inverses: converting an
image point to display space and back, or a display point to image
space and back, recovers the point; over the exact rationals of this
embedding the recovery is exact, which is within any floating point
tolerance. -/
theorem c7_transform_conversions_inverse (nw nh vw vh : Nat) (x y px py : ℚ)
    (h1 : 0 < nw) (h2 : 0 < nh) (h3 : 0 < vw) (h4 : 0 < vh) :
    toImageSpace (update_scaled_pixmap nw nh vw vh).1
      (toDisplaySpace (update_scaled_pixmap nw nh vw vh).1 x y).1
      (toDisplaySpace (update_scaled_pixmap nw nh vw vh).1 x y).2 = (x, y) ∧
    toDisplaySpace (update_scaled_pixmap nw nh vw vh).1
      (toImageSpace (update_scaled_pixmap nw nh vw vh).1 px py).1
      (toImageSpace (update_scaled_pixmap nw nh vw vh).1 px py).2 = (px, py) := by
  have hs : (update_scaled_pixmap nw nh vw vh).1.scale_factor ≠ 0 := by
    have hpos : (0 : ℚ) < min ((vw : ℚ) / (nw : ℚ)) ((vh : ℚ) / (nh : ℚ)) :=
      lt_min (div_pos (by exact_mod_cast h3) (by exact_mod_cast h1))
        (div_pos (by exact_mod_cast h4) (by exact_mod_cast h2))
    exact ne_of_gt hpos
  constructor
  · simp only [toImageSpace, toDisplaySpace, Prod.mk.injEq]
    constructor
    · rw [add_sub_cancel_right, mul_div_cancel_right₀ _ hs]
    · rw [add_sub_cancel_right, mul_div_cancel_right₀ _ hs]
  · simp only [toImageSpace, toDisplaySpace, Prod.mk.injEq]
    constructor
    · rw [div_mul_cancel₀ _ hs]
      ring
    · rw [div_mul_cancel₀ _ hs]
      ring

/-- Witness for claim C7 at native size 800 by 600, viewport 400 by
300, image point (7, 11) and display point (3, 5). -/
theorem c7_transform_conversions_inverse_witness :
    toImageSpace (update_scaled_pixmap 800 600 400 300).1
      (toDisplaySpace (update_scaled_pixmap 800 600 400 300).1 7 11).1
      (toDisplaySpace (update_scaled_pixmap 800 600 400 300).1 7 11).2 = (7, 11) ∧
    toDisplaySpace (update_scaled_pixmap 800 600 400 300).1
      (toImageSpace (update_scaled_pixmap 800 600 400 300).1 3 5).1
      (toImageSpace (update_scaled_pixmap 800 600 400 300).1 3 5).2 = (3, 5) :=
  c7_transform_conversions_inverse 800 600 400 300 7 11 3 5
    (by decide) (by decide) (by decide) (by decide)

/-! ## Claim C8 -/

theorem qtScaledSize_exact (nw nh vw vh : Nat)
    (h1 : 0 < nw) (h2 : 0 < nh) (h3 : 0 < vw) (h4 : 0 < vh)
    (hd1 : nh ∣ vh * nw) (hd2 : nw ∣ vw * nh) :
    ((qtScaledSize nw nh vw vh).1 : ℚ) =
      (nw : ℚ) * min ((vw : ℚ) / (nw : ℚ)) ((vh : ℚ) / (nh : ℚ)) ∧
    ((qtScaledSize nw nh vw vh).2 : ℚ) =
      (nh : ℚ) * min ((vw : ℚ) / (nw : ℚ)) ((vh : ℚ) / (nh : ℚ)) := by
  obtain ⟨k, hk⟩ := hd1
  obtain ⟨j, hj⟩ := hd2
  have hnwQ : (nw : ℚ) ≠ 0 := Nat.cast_ne_zero.mpr (Nat.pos_iff_ne_zero.mp h1)
  have hnhQ : (nh : ℚ) ≠ 0 := Nat.cast_ne_zero.mpr (Nat.pos_iff_ne_zero.mp h2)
  have hk0 : 0 < k := by
    rcases Nat.eq_zero_or_pos k with rfl | hp
    · rw [Nat.mul_zero] at hk
      rcases Nat.mul_eq_zero.mp hk with h | h <;> omega
    · exact hp
  have hj0 : 0 < j := by
    rcases Nat.eq_zero_or_pos j with rfl | hp
    · rw [Nat.mul_zero] at hj
      rcases Nat.mul_eq_zero.mp hj with h | h <;> omega
    · exact hp
  have hrw : vh * nw / nh = k := by
    rw [hk]
    exact Nat.mul_div_cancel_left k h2
  by_cases hc : k ≤ vw
  · have e : qtScaledSize nw nh vw vh = (k, vh) := by
      simp only [qtScaledSize, hrw]
      rw [if_neg (by omega), if_pos hc, Nat.max_eq_left hk0, Nat.max_eq_left h4]
    have hle : (vh : ℚ) / nh ≤ (vw : ℚ) / nw := by
      rw [div_le_div_iff (by exact_mod_cast h2) (by exact_mod_cast h1)]
      have hnat : vh * nw ≤ vw * nh := by
        calc vh * nw = nh * k := hk
          _ ≤ nh * vw := Nat.mul_le_mul (Nat.le_refl nh) hc
          _ = vw * nh := Nat.mul_comm nh vw
      exact_mod_cast hnat
    have hmin : min ((vw : ℚ) / nw) ((vh : ℚ) / nh) = (vh : ℚ) / nh :=
      min_eq_right hle
    rw [e, hmin]
    dsimp only
    constructor
    · rw [← mul_div_assoc, eq_div_iff hnhQ]
      have hnat : k * nh = nw * vh := by
        rw [Nat.mul_comm k nh, ← hk, Nat.mul_comm vh nw]
      exact_mod_cast hnat
    · rw [mul_comm ((nh : ℚ)) _, div_mul_cancel₀ _ hnhQ]
  · have hrw2 : vw * nh / nw = j := by
      rw [hj]
      exact Nat.mul_div_cancel_left j h1
    have e : qtScaledSize nw nh vw vh = (vw, j) := by
      simp only [qtScaledSize, hrw, hrw2]
      rw [if_neg (by omega), if_neg hc, Nat.max_eq_left h3, Nat.max_eq_left hj0]
    have hlt : (vw : ℚ) / nw ≤ (vh : ℚ) / nh := by
      rw [div_le_div_iff (by exact_mod_cast h1) (by exact_mod_cast h2)]
      have hkk : vw < k := Nat.lt_of_not_le hc
      have hnat : vw * nh ≤ vh * nw := by
        calc vw * nh = nh * vw := Nat.mul_comm vw nh
          _ ≤ nh * k := Nat.mul_le_mul (Nat.le_refl nh) (Nat.le_of_lt hkk)
          _ = vh * nw := hk.symm
      exact_mod_cast hnat
    have hmin : min ((vw : ℚ) / nw) ((vh : ℚ) / nh) = (vw : ℚ) / nw :=
      min_eq_left hlt
    rw [e, hmin]
    dsimp only
    constructor
    · rw [mul_comm ((nw : ℚ)) _, div_mul_cancel₀ _ hnwQ]
    · rw [← mul_div_assoc, eq_div_iff hnwQ]
      have hnat : j * nw = nh * vw := by
        rw [Nat.mul_comm j nw, ← hj, Nat.mul_comm vw nh]
      exact_mod_cast hnat

/-- Claim C8, counterexample: for an 800 by 600 image in a 799 by 600
viewport, the code centers using the INTEGER size of the scaled pixmap
(799 by 599, rounded down by Qt), giving vertical offset
(600 - 599) / 2 = 1/2, while the claimed formula
(viewportH - nativeH * scaleFactor) / 2 gives
(600 - 600 * (799/800)) / 2 = 3/8. -/
theorem c8_offset_uses_integer_scaled_size :
    (update_scaled_pixmap 800 600 799 600).1.image_offset.2 = 1 / 2 ∧
    ((600 : ℚ) - (600 : ℚ) * (update_scaled_pixmap 800 600 799 600).1.scale_factor) / 2
      = 3 / 8 ∧
    (1 : ℚ) / 2 ≠ 3 / 8 := by
  norm_num [update_scaled_pixmap, qtScaledSize, min_def]

/-- Claim C8, amended: the scale factor is min(viewportW / nativeW,
viewportH / nativeH) exactly as claimed, but the centering offsets are
computed from the integer dimensions of the scaled pixmap:
offsetX = (viewportW - scaledW) / 2 and offsetY = (viewportH - scaledH)
/ 2.  These agree with the claimed formulas
(viewportW - nativeW * scaleFactor) / 2 and
(viewportH - nativeH * scaleFactor) / 2 exactly when the ideal scaled
dimensions are integers, stated here under the divisibility hypotheses
nativeH divides viewportH * nativeW and nativeW divides
viewportW * nativeH; otherwise the integer rounding makes the offsets
differ, as the counterexample shows. -/
theorem c8_transform_amended (nw nh vw vh : Nat)
    (h1 : 0 < nw) (h2 : 0 < nh) (h3 : 0 < vw) (h4 : 0 < vh)
    (hd1 : nh ∣ vh * nw) (hd2 : nw ∣ vw * nh) :
    (update_scaled_pixmap nw nh vw vh).1.scale_factor =
      min ((vw : ℚ) / (nw : ℚ)) ((vh : ℚ) / (nh : ℚ)) ∧
    (update_scaled_pixmap nw nh vw vh).1.image_offset =
      (((vw : ℚ) - ((qtScaledSize nw nh vw vh).1 : ℚ)) / 2,
       ((vh : ℚ) - ((qtScaledSize nw nh vw vh).2 : ℚ)) / 2) ∧
    (update_scaled_pixmap nw nh vw vh).1.image_offset =
      (((vw : ℚ) - (nw : ℚ) * (update_scaled_pixmap nw nh vw vh).1.scale_factor) / 2,
       ((vh : ℚ) - (nh : ℚ) * (update_scaled_pixmap nw nh vw vh).1.scale_factor) / 2) := by
  obtain ⟨e1, e2⟩ := qtScaledSize_exact nw nh vw vh h1 h2 h3 h4 hd1 hd2
  refine ⟨rfl, rfl, ?_⟩
  have hoff : (update_scaled_pixmap nw nh vw vh).1.image_offset =
      (((vw : ℚ) - ((qtScaledSize nw nh vw vh).1 : ℚ)) / 2,
       ((vh : ℚ) - ((qtScaledSize nw nh vw vh).2 : ℚ)) / 2) := rfl
  have hsf : (update_scaled_pixmap nw nh vw vh).1.scale_factor =
      min ((vw : ℚ) / (nw : ℚ)) ((vh : ℚ) / (nh : ℚ)) := rfl
  rw [hoff, hsf, e1, e2]

/-- Witness for claim C8 amended at native size 800 by 600 and viewport
400 by 300, where the ideal scaled size (400, 300) is integral. -/
theorem c8_transform_amended_witness :
    (update_scaled_pixmap 800 600 400 300).1.scale_factor =
      min ((400 : ℚ) / (800 : ℚ)) ((300 : ℚ) / (600 : ℚ)) ∧
    (update_scaled_pixmap 800 600 400 300).1.image_offset =
      (((400 : ℚ) - ((qtScaledSize 800 600 400 300).1 : ℚ)) / 2,
       ((300 : ℚ) - ((qtScaledSize 800 600 400 300).2 : ℚ)) / 2) ∧
    (update_scaled_pixmap 800 600 400 300).1.image_offset =
      (((400 : ℚ) - (800 : ℚ) * (update_scaled_pixmap 800 600 400 300).1.scale_factor) / 2,
       ((300 : ℚ) - (600 : ℚ) * (update_scaled_pixmap 800 600 400 300).1.scale_factor) / 2) := by
  have h := c8_transform_amended 800 600 400 300 (by decide) (by decide)
    (by decide) (by decide) (by decide) (by decide)
  exact_mod_cast h

/-! ## Claim C9 -/

theorem resolve_mem (r : Registry) (n : String) :
    (∀ p ∈ r.class_to_id, p ∈ (resolve r n).2.class_to_id) ∧
    (n, (resolve r n).1) ∈ (resolve r n).2.class_to_id := by
  cases h : dictGet r.class_to_id n with
  | some i =>
      simp only [resolve, h]
      exact ⟨fun p hp => hp, dictGet_mem _ _ _ h⟩
  | none =>
      simp only [resolve, h]
      exact ⟨fun p hp => List.mem_append_left _ hp,
        List.mem_append_right _ (by simp)⟩

theorem add_class_id_consistent (s : EditorState) (n : String)
    (h : RegistryConsistent s) : RegistryConsistent (add_class_id s n) := by
  cases hcb : s.current_bbox with
  | none =>
      intro c hc
      simp only [add_class_id, hcb] at hc ⊢
      exact h c hc
  | some b =>
      by_cases hn : n = ""
      · intro c hc
        simp only [add_class_id, hcb, hn, if_pos] at hc ⊢
        exact h c hc
      · intro c hc
        have hres := resolve_mem ⟨s.class_to_id, s.current_class_id⟩ n
        simp only [add_class_id, hcb, hn, if_false] at hc ⊢
        rcases List.mem_append.mp hc with hmem | hmem
        · obtain ⟨p, hp, hpe⟩ := h c hmem
          exact ⟨p, hres.1 p hp, hpe⟩
        · have hceq : c = ⟨b.x, b.y, b.w, b.h,
              (resolve ⟨s.class_to_id, s.current_class_id⟩ n).1⟩ := by
            simpa using hmem
          subst hceq
          exact ⟨(n, (resolve ⟨s.class_to_id, s.current_class_id⟩ n).1), hres.2, rfl⟩

theorem step_consistent (s : EditorState) (e : Event)
    (h : RegistryConsistent s) : RegistryConsistent (step s e) := by
  cases e with
  | load nw nh vw vh =>
      intro c hc
      simp only [step, load_image] at hc
      exact absurd hc (List.not_mem_nil c)
  | loadCancel =>
      intro c hc
      simp only [step, load_image_cancelled] at hc ⊢
      exact h c hc
  | resize vw vh =>
      intro c hc
      cases hos : s.original_size with
      | none =>
          simp only [step, resizeEvent, hos] at hc ⊢
          exact h c hc
      | some sz =>
          simp only [step, resizeEvent, hos] at hc ⊢
          exact h c hc
  | press ex ey =>
      intro c hc
      cases hos : s.original_size with
      | none =>
          simp only [step, mousePressEvent, hos] at hc ⊢
          exact h c hc
      | some sz =>
          simp only [step, mousePressEvent, hos] at hc ⊢
          exact h c hc
  | move ex ey =>
      intro c hc
      by_cases hd : s.drawing = true
      · cases hbb : s.current_bbox with
        | none =>
            simp only [step, mouseMoveEvent, hd, if_true, hbb] at hc ⊢
            exact h c hc
        | some b =>
            simp only [step, mouseMoveEvent, hd, if_true, hbb] at hc ⊢
            exact h c hc
      · simp only [step, mouseMoveEvent, hd, if_false] at hc ⊢
        exact h c hc
  | release =>
      intro c hc
      by_cases hd : s.drawing = true
      · simp only [step, mouseReleaseEvent, hd, if_true] at hc ⊢
        exact h c hc
      · simp only [step, mouseReleaseEvent, hd, if_false] at hc ⊢
        exact h c hc
  | commit n =>
      by_cases he : s.input_enabled = true
      · have hstep : step s (Event.commit n) = add_class_id s n := by
          simp [step, he]
        rw [hstep]
        exact add_class_id_consistent s n h
      · have hstep : step s (Event.commit n) = s := by
          simp [step, he]
        rw [hstep]
        exact h

theorem runEvents_consistent (es : List Event) (s : EditorState)
    (h : RegistryConsistent s) : RegistryConsistent (runEvents s es) := by
  induction es generalizing s with
  | nil => exact h
  | cons e es ih => exact ih (step s e) (step_consistent s e h)

/-- Claim C9: from any session start (any restored mapping, including
none) and any event sequence, every committed box carries a class id
that some registry entry maps to, so the reverse lookup list built in
paintEvent is nonempty and its element 0 access is in bounds: the ids
of committed boxes are exactly those produced by resolve, the registry
only grows, and loading an image clears the box list. -/
theorem c9_reverse_lookup_inhabited (m : List (String × Nat)) (es : List Event)
    (b : CommittedBox) (hb : b ∈ (runEvents (initialState m) es).bboxes) :
    classNamesFor (runEvents (initialState m) es).class_to_id b.class_id ≠ [] := by
  have hcons : RegistryConsistent (runEvents (initialState m) es) :=
    runEvents_consistent es (initialState m)
      (fun c hc => absurd hc (List.not_mem_nil c))
  obtain ⟨p, hp, hpe⟩ := hcons b hb
  intro hnil
  have hmem : p.1 ∈ classNamesFor
      (runEvents (initialState m) es).class_to_id b.class_id := by
    unfold classNamesFor
    exact List.mem_map_of_mem Prod.fst (List.mem_filter.mpr ⟨hp, by simp [hpe]⟩)
  rw [hnil] at hmem
  exact absurd hmem (List.not_mem_nil p.1)

/-- Witness for claim C9: after loading an image, dragging a box from
(10, 10) to (30, 40) and committing it as dog, the committed box
(10, 10, 20, 30) with class id 0 has the nonempty reverse lookup list
containing dog. -/
theorem c9_reverse_lookup_inhabited_witness :
    classNamesFor (runEvents (initialState []) [Event.load 800 600 800 600,
      Event.press 10 10, Event.move 30 40, Event.release,
      Event.commit "dog"]).class_to_id 0 ≠ [] :=
  c9_reverse_lookup_inhabited [] [Event.load 800 600 800 600,
    Event.press 10 10, Event.move 30 40, Event.release, Event.commit "dog"]
    ⟨10, 10, 20, 30, 0⟩
    (by norm_num [runEvents, step, load_image, mousePressEvent, mouseMoveEvent,
      mouseReleaseEvent, add_class_id, update_scaled_pixmap, qtScaledSize,
      toImageSpace, resolve, dictGet, initialState,
      show ("dog" : String) ≠ "" from by decide])
